import Mathlib

/-!
Verification of the SORT-style person tracker
(src/proposal_generation_pipeline/tools/person_tracker.py, with the near-identical
copy in src/tools/person_tracker.py).

The embedding uses exact rationals for the floating-point arithmetic of the
source and explicit state passing for the in-place mutation.  The single global
`KalmanTrack.track_id_counter` of the source is threaded explicitly as a `Nat`
next to each tracker.  `np.linalg.inv`, which raises `LinAlgError` exactly on a
singular matrix, is modelled as an `Option`-valued matrix inverse that is `none`
exactly when the determinant vanishes; every operation that can raise in the
source is `Option`-valued here.
-/

set_option allowUnsafeReducibility true
attribute [semireducible] Rat.add Rat.mul Rat.sub Rat.div Rat.inv Rat.neg
set_option maxRecDepth 8000

/-- An axis-aligned box `[x1, y1, x2, y2]`, as used throughout the tracker. -/
structure Box where
  x1 : ℚ
  y1 : ℚ
  x2 : ℚ
  y2 : ℚ
deriving DecidableEq

/-- A detection `[x1, y1, x2, y2, score]`: `det[:4]` is the box, `det[4]` the score. -/
structure Det where
  box : Box
  score : ℚ
deriving DecidableEq

/-- The all-zero box, used as the (never reached) default of in-range list indexing. -/
def boxZero : Box := ⟨0, 0, 0, 0⟩

/-- `(b[2] - b[0]) * (b[3] - b[1])`, the (signed) area of a box. -/
def areaOf (b : Box) : ℚ := (b.x2 - b.x1) * (b.y2 - b.y1)

/-- `KalmanSORTTracker._iou` (`_calculate_iou` in the src/tools copy): intersection
area over union area, with the `1e-6` stabiliser the source adds to the denominator. -/
def iou (b1 b2 : Box) : ℚ :=
  max 0 (min b1.x2 b2.x2 - max b1.x1 b2.x1) * max 0 (min b1.y2 b2.y2 - max b1.y1 b2.y1) /
    ((b1.x2 - b1.x1) * (b1.y2 - b1.y1) + (b2.x2 - b2.x1) * (b2.y2 - b2.y1)
      - max 0 (min b1.x2 b2.x2 - max b1.x1 b2.x1) * max 0 (min b1.y2 b2.y2 - max b1.y1 b2.y1)
      + 1 / 1000000)

/-- `KalmanFilter.bbox_to_z`: measurement vector `[cx, cy, aspect, h]` as a 4x1
column (a list of rows), with the aspect ratio guarded to `0` when `h <= 0`. -/
def bbox_to_z (b : Box) : List (List ℚ) :=
  [[b.x1 + (b.x2 - b.x1) / 2],
   [b.y1 + (b.y2 - b.y1) / 2],
   [if 0 < b.y2 - b.y1 then (b.x2 - b.x1) / (b.y2 - b.y1) else 0],
   [b.y2 - b.y1]]

/-! ### Matrices and the Kalman filter

The source stores `F`, `H`, `P`, `Q`, `R` as 2-d numpy arrays; they are embedded
as lists of rows of rationals.  `F`, `H`, `Q`, `R` are set in
`KalmanFilter.__init__` and never mutated afterwards, so they are plain
constants here. -/

/-- Dot product of two equal-length rows. -/
def dotProd (r c : List ℚ) : ℚ := (List.zipWith (fun a b => a * b) r c).sum

/-- Transpose of a rectangular matrix given as a list of rows. -/
def matTranspose (m : List (List ℚ)) : List (List ℚ) :=
  (List.range (m.headD []).length).map fun j => m.map fun row => row.getD j 0

/-- Matrix product (numpy `@`). -/
def matMul (a b : List (List ℚ)) : List (List ℚ) :=
  a.map fun row => (matTranspose b).map fun col => dotProd row col

/-- Entrywise matrix sum. -/
def matAdd (a b : List (List ℚ)) : List (List ℚ) :=
  List.zipWith (List.zipWith (fun x y => x + y)) a b

/-- Entrywise matrix difference. -/
def matSub (a b : List (List ℚ)) : List (List ℚ) :=
  List.zipWith (List.zipWith (fun x y => x - y)) a b

/-- `np.eye n`. -/
def matEye (n : ℕ) : List (List ℚ) :=
  (List.range n).map fun i => (List.range n).map fun j => if i = j then 1 else 0

/-- Entry `m[i][j]`, defaulting to `0` out of range. -/
def mEntry (m : List (List ℚ)) (i j : ℕ) : ℚ := (m.getD i []).getD j 0

/-- Drop the element at index `k` of a list. -/
def dropIdx (l : List α) (k : ℕ) : List α := l.take k ++ l.drop (k + 1)

/-- The minor of `m` obtained by deleting row `r` and column `c`. -/
def minorMat (m : List (List ℚ)) (r c : ℕ) : List (List ℚ) :=
  (dropIdx m r).map fun row => dropIdx row c

/-- Determinant of a 3x3 matrix by cofactor expansion. -/
def det3 (m : List (List ℚ)) : ℚ :=
  mEntry m 0 0 * (mEntry m 1 1 * mEntry m 2 2 - mEntry m 1 2 * mEntry m 2 1)
    - mEntry m 0 1 * (mEntry m 1 0 * mEntry m 2 2 - mEntry m 1 2 * mEntry m 2 0)
    + mEntry m 0 2 * (mEntry m 1 0 * mEntry m 2 1 - mEntry m 1 1 * mEntry m 2 0)

/-- Determinant of a 4x4 matrix by cofactor expansion along the first row. -/
def det4 (m : List (List ℚ)) : ℚ :=
  mEntry m 0 0 * det3 (minorMat m 0 0) - mEntry m 0 1 * det3 (minorMat m 0 1)
    + mEntry m 0 2 * det3 (minorMat m 0 2) - mEntry m 0 3 * det3 (minorMat m 0 3)

/-- `np.linalg.inv` on the 4x4 innovation covariance: the exact inverse via the
adjugate, `none` exactly when the matrix is singular (where numpy raises
`LinAlgError`). -/
def matInv4 (m : List (List ℚ)) : Option (List (List ℚ)) :=
  if det4 m = 0 then none
  else some ((List.range 4).map fun i => (List.range 4).map fun j =>
    (if (i + j) % 2 = 0 then 1 else -1) * det3 (minorMat m j i) / det4 m)

/-- `KalmanFilter.F`: identity with ones linking each position to its velocity
(`F[i, i+4] = 1` for `i < 4`). -/
def kalmanF : List (List ℚ) :=
  (List.range 8).map fun i => (List.range 8).map fun j => if i = j ∨ j = i + 4 then 1 else 0

/-- `KalmanFilter.H = np.eye(4, 8)`. -/
def kalmanH : List (List ℚ) :=
  (List.range 4).map fun i => (List.range 8).map fun j => if i = j then 1 else 0

/-- `KalmanFilter.P` initial value: `eye(8) * 10` with the velocity block scaled
by a further `1000`. -/
def kalmanP0 : List (List ℚ) :=
  (List.range 8).map fun i => (List.range 8).map fun j =>
    if i = j then (if i < 4 then 10 else 10000) else 0

/-- `KalmanFilter.Q`: `eye(8)` with the velocity block scaled by `0.01`. -/
def kalmanQ : List (List ℚ) :=
  (List.range 8).map fun i => (List.range 8).map fun j =>
    if i = j then (if i < 4 then 1 else 1 / 100) else 0

/-- `KalmanFilter.R = eye(4) * 0.1`. -/
def kalmanR : List (List ℚ) :=
  (List.range 4).map fun i => (List.range 4).map fun j => if i = j then 1 / 10 else 0

/-- The mutable state of a `KalmanFilter` instance: the 8x1 state `x`, the 8x8
covariance `P` and the `is_initialized` flag. -/
structure KalmanFilter where
  x : List (List ℚ)
  P : List (List ℚ)
  is_initialized : Bool
deriving DecidableEq

/-- `KalmanFilter.__init__`: zero state, the initial `P`, not yet initialized. -/
def kfInit : KalmanFilter := ⟨(List.range 8).map fun _ => [0], kalmanP0, false⟩

/-- `KalmanFilter.predict`: `x = F @ x`, `P = F @ P @ F.T + Q`. -/
def kfPredict (kf : KalmanFilter) : KalmanFilter :=
  ⟨matMul kalmanF kf.x,
   matAdd (matMul (matMul kalmanF kf.P) (matTranspose kalmanF)) kalmanQ,
   kf.is_initialized⟩

/-- `KalmanFilter.update(z)`: on the first call copy `z` into `x[:4]` and set the
flag; afterwards the standard correction, `none` when `np.linalg.inv(S)` raises. -/
def kfUpdate (kf : KalmanFilter) (z : List (List ℚ)) : Option KalmanFilter :=
  if kf.is_initialized then
    match matInv4 (matAdd (matMul (matMul kalmanH kf.P) (matTranspose kalmanH)) kalmanR) with
    | none => none
    | some sInv =>
      some ⟨matAdd kf.x (matMul (matMul (matMul kf.P (matTranspose kalmanH)) sInv)
              (matSub z (matMul kalmanH kf.x))),
            matMul (matSub (matEye 8) (matMul (matMul (matMul kf.P (matTranspose kalmanH)) sInv)
              kalmanH)) kf.P,
            true⟩
  else
    some ⟨z ++ kf.x.drop 4, kf.P, true⟩

/-- `KalmanFilter.z_to_bbox()` applied to the filter state:
`h = x[3]`, `w = x[2] * h`, centre `(x[0], x[1])`. -/
def z_to_bbox (kf : KalmanFilter) : Box :=
  ⟨mEntry kf.x 0 0 - mEntry kf.x 2 0 * mEntry kf.x 3 0 / 2,
   mEntry kf.x 1 0 - mEntry kf.x 3 0 / 2,
   mEntry kf.x 0 0 + mEntry kf.x 2 0 * mEntry kf.x 3 0 / 2,
   mEntry kf.x 1 0 + mEntry kf.x 3 0 / 2⟩

/-! ### Tracks -/

/-- One `KalmanTrack`: identity, score, filter, cached `bbox`, and the lifecycle
counters `hits`, `age`, `time_since_update`. -/
structure KalmanTrack where
  track_id : ℕ
  score : ℚ
  kf : KalmanFilter
  bbox : Box
  hits : ℕ
  age : ℕ
  time_since_update : ℕ
deriving DecidableEq

/-- `KalmanTrack.__init__(bbox, score)` with the freshly drawn id: a new filter,
one `update` call (which, on an uninitialized filter, always succeeds and just
copies the measurement), `hits = 1`, `age = 1`, `time_since_update = 0`. -/
def newKalmanTrack (id : ℕ) (b : Box) (score : ℚ) : KalmanTrack :=
  ⟨id, score,
   (kfUpdate kfInit (bbox_to_z b)).getD kfInit,
   z_to_bbox ((kfUpdate kfInit (bbox_to_z b)).getD kfInit),
   1, 1, 0⟩

/-- `KalmanTrack.update(bbox, score)`: a Kalman correction (which can fail on a
singular innovation covariance), refresh `bbox` and `score`, reset
`time_since_update`, increment `hits`. -/
def trackUpdate (t : KalmanTrack) (b : Box) (score : ℚ) : Option KalmanTrack :=
  (kfUpdate t.kf (bbox_to_z b)).map fun kf2 =>
    ⟨t.track_id, score, kf2, z_to_bbox kf2, t.hits + 1, t.age, 0⟩

/-- `KalmanTrack.predict()`: advance the filter, refresh `bbox`, increment `age`
and `time_since_update`. -/
def trackPredict (t : KalmanTrack) : KalmanTrack :=
  ⟨t.track_id, t.score, kfPredict t.kf, z_to_bbox (kfPredict t.kf),
   t.hits, t.age + 1, t.time_since_update + 1⟩

/-! ### Greedy association (`KalmanSORTTracker._match`) -/

/-- The loop state of `_match`: committed pairs, the still-unmatched detection
indices, and the still-unmatched track indices. -/
structure MatchState where
  matched : List (ℕ × ℕ)
  unmatchedDets : List ℕ
  unmatchedTracks : List ℕ
deriving DecidableEq

/-- `np.argmax` over `map f l`, returned as the element of `l` at the first
position attaining the maximum (the source indexes `unmatched_dets` with the
argmax position, which is the same thing). -/
def argmaxFirst (f : ℕ → ℚ) : List ℕ → Option ℕ
  | [] => none
  | d :: ds =>
    match argmaxFirst f ds with
    | none => some d
    | some e => if f d < f e then some e else some d

/-- The `for t_idx, _ in enumerate(self.tracks)` loop of `_match`: `f` is the
IoU matrix as a function of (track index, detection index).  An empty
`unmatched_dets` is the `break`; a committed match appends the pair and removes
both indices. -/
def matchLoop (thresh : ℚ) (f : ℕ → ℕ → ℚ) : List ℕ → MatchState → MatchState
  | [], st => st
  | tIdx :: rest, st =>
    if st.unmatchedDets = [] then st
    else
      match argmaxFirst (f tIdx) st.unmatchedDets with
      | none => matchLoop thresh f rest st
      | some d =>
        if thresh ≤ f tIdx d then
          matchLoop thresh f rest
            ⟨st.matched ++ [(tIdx, d)], st.unmatchedDets.erase d, st.unmatchedTracks.erase tIdx⟩
        else matchLoop thresh f rest st

/-- `KalmanSORTTracker._match` on the predicted track boxes and detection boxes:
with either side empty it returns no matches and everything unmatched, otherwise
it runs the greedy loop from the all-unmatched state.  The IoU matrix of
`_calculate_iou_matrix` is the function `fun t d => iou (tracks[t]) (dets[d])`. -/
def kalmanMatch (thresh : ℚ) (trackBoxes detBoxes : List Box) :
    List (ℕ × ℕ) × List ℕ × List ℕ :=
  if trackBoxes.isEmpty ∨ detBoxes.isEmpty then
    ([], List.range detBoxes.length, List.range trackBoxes.length)
  else
    ((matchLoop thresh (fun t d => iou (trackBoxes.getD t boxZero) (detBoxes.getD d boxZero))
        (List.range trackBoxes.length)
        ⟨[], List.range detBoxes.length, List.range trackBoxes.length⟩).matched,
     (matchLoop thresh (fun t d => iou (trackBoxes.getD t boxZero) (detBoxes.getD d boxZero))
        (List.range trackBoxes.length)
        ⟨[], List.range detBoxes.length, List.range trackBoxes.length⟩).unmatchedDets,
     (matchLoop thresh (fun t d => iou (trackBoxes.getD t boxZero) (detBoxes.getD d boxZero))
        (List.range trackBoxes.length)
        ⟨[], List.range detBoxes.length, List.range trackBoxes.length⟩).unmatchedTracks)

/-- A concrete stand-in IoU-matrix function used to witness the greedy-step
characterisation. -/
def iouStub : ℕ → ℕ → ℚ := fun _ d => if d = 0 then 1 else 1 / 2

/-! ### The tracker (`KalmanSORTTracker`) -/

/-- The per-instance state of a `KalmanSORTTracker`: the four constructor
parameters and the live track list.  `max_age` and `min_hits` are frame counts
and therefore naturals. -/
structure KalmanSORTTracker where
  track_thresh : ℚ
  match_thresh : ℚ
  max_age : ℕ
  min_hits : ℕ
  tracks : List KalmanTrack
deriving DecidableEq

/-- `KalmanSORTTracker.__init__`: empty track list, and the class-level
`KalmanTrack.track_id_counter` is reset to `0` — the second component is the
value of that global counter after construction. -/
def mkSORTTracker (tt mt : ℚ) (ma mh : ℕ) : KalmanSORTTracker × ℕ :=
  (⟨tt, mt, ma, mh, []⟩, 0)

/-- The `for t_idx, d_idx in matched` loop of `update`: each committed pair
updates the track at `t_idx` with the detection at `d_idx` in place.  An
out-of-range index (an `IndexError` in the source) or a failed Kalman correction
yields `none`. -/
def applyMatches (dets : List Det) : List (ℕ × ℕ) → List KalmanTrack → Option (List KalmanTrack)
  | [], ts => some ts
  | p :: rest, ts =>
    (dets.get? p.2).bind fun d =>
      (ts.get? p.1).bind fun t =>
        (trackUpdate t d.box d.score).bind fun t2 =>
          applyMatches dets rest (ts.set p.1 t2)

/-- The `for d_idx in unmatched_dets` loop of `update`: each unmatched detection
spawns a fresh `KalmanTrack` appended to the list, consuming one id from the
global counter. -/
def spawnNew (dets : List Det) : List ℕ → List KalmanTrack → ℕ → Option (List KalmanTrack × ℕ)
  | [], ts, c => some (ts, c)
  | dIdx :: rest, ts, c =>
    (dets.get? dIdx).bind fun d =>
      spawnNew dets rest (ts ++ [newKalmanTrack c d.box d.score]) (c + 1)

/-- The final loop of `update`, producing `(active, remaining)` in traversal
order: a track goes to `active` when `time_since_update == 0` and
`hits >= min_hits`, and to `remaining` when `time_since_update <= max_age`. -/
def splitAR (minHits maxAge : ℕ) : List KalmanTrack → List KalmanTrack × List KalmanTrack
  | [] => ([], [])
  | t :: ts =>
    ((if t.time_since_update = 0 ∧ minHits ≤ t.hits
        then t :: (splitAR minHits maxAge ts).1 else (splitAR minHits maxAge ts).1),
     (if t.time_since_update ≤ maxAge
        then t :: (splitAR minHits maxAge ts).2 else (splitAR minHits maxAge ts).2))

/-- The association phase of `KalmanSORTTracker.update(detections)`: filter the
detections by `track_thresh`, predict every live track in place, run `_match`
on the predicted boxes, apply the matched updates, spawn new tracks for
unmatched detections.  Returns the post-association track list and the new
value of the global id counter, or `none` on an escaped exception. -/
def trackerAssoc (tr : KalmanSORTTracker) (c : ℕ) (dets : List Det) :
    Option (List KalmanTrack × ℕ) :=
  (applyMatches (dets.filter fun d => tr.track_thresh ≤ d.score)
      (kalmanMatch tr.match_thresh
        ((tr.tracks.map trackPredict).map KalmanTrack.bbox)
        ((dets.filter fun d => tr.track_thresh ≤ d.score).map Det.box)).1
      (tr.tracks.map trackPredict)).bind fun updated =>
    spawnNew (dets.filter fun d => tr.track_thresh ≤ d.score)
      (kalmanMatch tr.match_thresh
        ((tr.tracks.map trackPredict).map KalmanTrack.bbox)
        ((dets.filter fun d => tr.track_thresh ≤ d.score).map Det.box)).2.1
      updated c

/-- `KalmanSORTTracker.update(detections)`: the association phase followed by the
active/remaining split; the live set becomes `remaining` and the reportable
`active` list is returned. -/
def trackerUpdate (tr : KalmanSORTTracker) (c : ℕ) (dets : List Det) :
    Option (KalmanSORTTracker × ℕ × List KalmanTrack) :=
  (trackerAssoc tr c dets).map fun p =>
    (⟨tr.track_thresh, tr.match_thresh, tr.max_age, tr.min_hits,
        (splitAR tr.min_hits tr.max_age p.1).2⟩,
     p.2,
     (splitAR tr.min_hits tr.max_age p.1).1)

/-- The reportable list of an `update` result (empty if the call raised). -/
def activeOf : Option (KalmanSORTTracker × ℕ × List KalmanTrack) → List KalmanTrack
  | none => []
  | some r => r.2.2

/-- The live track list after an `update` (empty if the call raised). -/
def tracksOf : Option (KalmanSORTTracker × ℕ × List KalmanTrack) → List KalmanTrack
  | none => []
  | some r => r.1.tracks

/-- A run of one tracker instance over a list of frames (no other construction
interleaved): final `(tracker, counter)` state.  An escaped exception aborts the
clip, leaving the state of the last successful frame. -/
def runTracker (tr : KalmanSORTTracker) (c : ℕ) : List (List Det) → KalmanSORTTracker × ℕ
  | [] => (tr, c)
  | f :: fs =>
    match trackerUpdate tr c f with
    | none => (tr, c)
    | some r => runTracker r.1 r.2.1 fs

/-- The per-frame reportable outputs of a run of one tracker instance. -/
def runOutputs (tr : KalmanSORTTracker) (c : ℕ) : List (List Det) → List (List KalmanTrack)
  | [] => []
  | f :: fs =>
    match trackerUpdate tr c f with
    | none => []
    | some r => r.2.2 :: runOutputs r.1 r.2.1 fs

/-- The ids handed to tracks spawned along a run: each frame's spawns receive the
consecutive ids from the counter before the frame up to the counter after it
(see `spawnNew_ids`). -/
def runCreated (tr : KalmanSORTTracker) (c : ℕ) : List (List Det) → List ℕ
  | [] => []
  | f :: fs =>
    match trackerUpdate tr c f with
    | none => []
    | some r => List.range' c (r.2.1 - c) ++ runCreated r.1 r.2.1 fs

/-- The ids of the live tracks of a tracker. -/
def liveIds (tr : KalmanSORTTracker) : List ℕ := tr.tracks.map KalmanTrack.track_id

/-- The id invariant of one tracker instance: live ids are pairwise distinct and
all below the global counter. -/
def TrackerInv (tr : KalmanSORTTracker) (c : ℕ) : Prop :=
  (liveIds tr).Nodup ∧ ∀ i ∈ liveIds tr, i < c

/-- The interleaved-construction scenario refuting claim C2: tracker `A` is
constructed (resetting the global counter to `0`) and spawns a track in its
first frame; a second `KalmanSORTTracker` is then constructed, resetting the
shared class-level counter to `0` again; `A`'s next frame sees a far-away
detection, spawns a second track — and hands it id `0` a second time.  The
result is `A`'s live id list. -/
def interleavedConstructionRun : Option (List ℕ) :=
  (trackerUpdate (mkSORTTracker (1 / 2) (3 / 10) 75 5).1 (mkSORTTracker (1 / 2) (3 / 10) 75 5).2
      [⟨⟨0, 0, 10, 10⟩, 1⟩]).bind fun r1 =>
    (trackerUpdate r1.1 (mkSORTTracker (1 / 2) (3 / 10) 75 5).2
        [⟨⟨100, 100, 110, 110⟩, 1⟩]).map fun r2 =>
      liveIds r2.1

/-! ### Theorems -/

example : iou ⟨0, 0, 2, 2⟩ ⟨0, 0, 2, 2⟩ = 4000000 / 4000001 := by decide

example : iou ⟨0, 0, 2, 2⟩ ⟨10, 10, 12, 12⟩ = 0 := by decide

/-- Claim C7: the IoU function is symmetric, `iou a b = iou b a`, for every pair
of boxes. -/
theorem iou_symmetric (a b : Box) : iou a b = iou b a := by
  unfold iou
  rw [max_comm a.x1 b.x1, max_comm a.y1 b.y1, min_comm a.x2 b.x2, min_comm a.y2 b.y2]
  ring_nf

/-- Counterexample to claim C6 as stated: two identical boxes of positive area do
not get IoU exactly `1`; the `1e-6` term the source adds to the denominator makes
the quotient `area / (area + 1e-6) < 1`. -/
theorem iou_identical_not_one_cex :
    0 < areaOf ⟨0, 0, 2, 2⟩ ∧ iou ⟨0, 0, 2, 2⟩ ⟨0, 0, 2, 2⟩ ≠ 1 := by
  decide

/-- Claim C6 (amended): with the `1e-6` stabiliser in the denominator, identical
well-formed boxes give `iou b b = area / (area + 1e-6)`, which is strictly below
`1` when the area is positive; disjoint boxes give exactly `0`; and a box fully
containing a half-area box gives `A/2 / (A + 1e-6)` where `A` is the outer area. -/
theorem iou_known_geometries :
    (∀ b : Box, b.x1 ≤ b.x2 → b.y1 ≤ b.y2 →
      iou b b = areaOf b / (areaOf b + 1 / 1000000)
        ∧ (0 < areaOf b → iou b b < 1))
    ∧ (∀ b c : Box,
        b.x2 ≤ c.x1 ∨ c.x2 ≤ b.x1 ∨ b.y2 ≤ c.y1 ∨ c.y2 ≤ b.y1 →
        iou b c = 0)
    ∧ (∀ b c : Box, b.x1 ≤ c.x1 → c.x2 ≤ b.x2 → b.y1 ≤ c.y1 → c.y2 ≤ b.y2 →
        c.x1 ≤ c.x2 → c.y1 ≤ c.y2 → areaOf b = 2 * areaOf c →
        iou b c = areaOf c / (2 * areaOf c + 1 / 1000000)) := by
  refine ⟨?_, ?_, ?_⟩
  · intro b hx hy
    have hmx : min b.x2 b.x2 = b.x2 := min_self _
    have hMx : max b.x1 b.x1 = b.x1 := max_self _
    have hmy : min b.y2 b.y2 = b.y2 := min_self _
    have hMy : max b.y1 b.y1 = b.y1 := max_self _
    have h1 : max 0 (b.x2 - b.x1) = b.x2 - b.x1 := max_eq_right (by linarith)
    have h2 : max 0 (b.y2 - b.y1) = b.y2 - b.y1 := max_eq_right (by linarith)
    constructor
    · unfold iou areaOf
      rw [hmx, hMx, hmy, hMy, h1, h2]
      ring_nf
    · intro hpos
      have heq : iou b b = areaOf b / (areaOf b + 1 / 1000000) := by
        unfold iou areaOf
        rw [hmx, hMx, hmy, hMy, h1, h2]
        ring_nf
      rw [heq]
      have hden : (0 : ℚ) < areaOf b + 1 / 1000000 := by linarith
      rw [div_lt_one hden]
      linarith
  · intro b c hdisj
    have hz : max 0 (min b.x2 c.x2 - max b.x1 c.x1) * max 0 (min b.y2 c.y2 - max b.y1 c.y1) = 0 := by
      rcases hdisj with h | h | h | h
      · have : max 0 (min b.x2 c.x2 - max b.x1 c.x1) = 0 := by
          apply max_eq_left
          have h1 : min b.x2 c.x2 ≤ b.x2 := min_le_left _ _
          have h2 : c.x1 ≤ max b.x1 c.x1 := le_max_right _ _
          linarith
        rw [this, zero_mul]
      · have : max 0 (min b.x2 c.x2 - max b.x1 c.x1) = 0 := by
          apply max_eq_left
          have h1 : min b.x2 c.x2 ≤ c.x2 := min_le_right _ _
          have h2 : b.x1 ≤ max b.x1 c.x1 := le_max_left _ _
          linarith
        rw [this, zero_mul]
      · have : max 0 (min b.y2 c.y2 - max b.y1 c.y1) = 0 := by
          apply max_eq_left
          have h1 : min b.y2 c.y2 ≤ b.y2 := min_le_left _ _
          have h2 : c.y1 ≤ max b.y1 c.y1 := le_max_right _ _
          linarith
        rw [this, mul_zero]
      · have : max 0 (min b.y2 c.y2 - max b.y1 c.y1) = 0 := by
          apply max_eq_left
          have h1 : min b.y2 c.y2 ≤ c.y2 := min_le_right _ _
          have h2 : b.y1 ≤ max b.y1 c.y1 := le_max_left _ _
          linarith
        rw [this, mul_zero]
    unfold iou
    rw [hz]
    simp
  · intro b c hx1 hx2 hy1 hy2 hcx hcy harea
    have hmx : min b.x2 c.x2 = c.x2 := min_eq_right hx2
    have hMx : max b.x1 c.x1 = c.x1 := max_eq_right hx1
    have hmy : min b.y2 c.y2 = c.y2 := min_eq_right hy2
    have hMy : max b.y1 c.y1 = c.y1 := max_eq_right hy1
    have h1 : max 0 (c.x2 - c.x1) = c.x2 - c.x1 := max_eq_right (by linarith)
    have h2 : max 0 (c.y2 - c.y1) = c.y2 - c.y1 := max_eq_right (by linarith)
    have hb : (b.x2 - b.x1) * (b.y2 - b.y1) = 2 * ((c.x2 - c.x1) * (c.y2 - c.y1)) := by
      have := harea
      unfold areaOf at this
      linarith
    unfold iou areaOf
    rw [hmx, hMx, hmy, hMy, h1, h2, hb]
    ring_nf

/-- Witness for `iou_known_geometries` at concrete geometries: the unit-doubled
box against itself, two separated boxes, and a containing box of twice the area. -/
theorem iou_known_geometries_witness :
    iou ⟨0, 0, 2, 2⟩ ⟨0, 0, 2, 2⟩ = areaOf ⟨0, 0, 2, 2⟩ / (areaOf ⟨0, 0, 2, 2⟩ + 1 / 1000000)
    ∧ iou ⟨0, 0, 2, 2⟩ ⟨10, 10, 12, 12⟩ = 0
    ∧ iou ⟨0, 0, 2, 2⟩ ⟨0, 0, 1, 2⟩ = areaOf ⟨0, 0, 1, 2⟩ / (2 * areaOf ⟨0, 0, 1, 2⟩ + 1 / 1000000) :=
  ⟨(iou_known_geometries.1 ⟨0, 0, 2, 2⟩ (by decide) (by decide)).1,
   iou_known_geometries.2.1 ⟨0, 0, 2, 2⟩ ⟨10, 10, 12, 12⟩ (by decide),
   iou_known_geometries.2.2 ⟨0, 0, 2, 2⟩ ⟨0, 0, 1, 2⟩ (by decide) (by decide) (by decide)
     (by decide) (by decide) (by decide) (by decide)⟩

/-- Claim C8: for every box whose height `h = y2 - y1` is nonpositive, the
aspect-ratio component of the measurement vector is computed as `0` instead of a
division by zero, so a degenerate detection cannot crash the conversion. -/
theorem bbox_to_z_degenerate_height (b : Box) (h : b.y2 - b.y1 ≤ 0) :
    (bbox_to_z b).getD 2 [] = [(0 : ℚ)] := by
  unfold bbox_to_z
  have : ¬ (0 < b.y2 - b.y1) := not_lt.mpr h
  simp [this]

/-- Witness for `bbox_to_z_degenerate_height`: a box of height zero. -/
theorem bbox_to_z_degenerate_height_witness :
    (bbox_to_z ⟨0, 0, 5, 0⟩).getD 2 [] = [(0 : ℚ)] :=
  bbox_to_z_degenerate_height ⟨0, 0, 5, 0⟩ (by decide)

example : (newKalmanTrack 3 ⟨0, 0, 10, 10⟩ 1).bbox = ⟨0, 0, 10, 10⟩ := by decide

example : (trackPredict (newKalmanTrack 3 ⟨0, 0, 10, 10⟩ 1)).bbox = ⟨0, 0, 10, 10⟩ := by decide

theorem argmaxFirst_mem (f : ℕ → ℚ) : ∀ (l : List ℕ) (d : ℕ), argmaxFirst f l = some d → d ∈ l := by
  intro l
  induction l with
  | nil => intro d h; simp [argmaxFirst] at h
  | cons a as ih =>
    intro d h
    cases hrec : argmaxFirst f as with
    | none =>
      simp only [argmaxFirst, hrec] at h
      simp at h
      simp [h]
    | some e =>
      simp only [argmaxFirst, hrec] at h
      split_ifs at h with hlt
      · simp at h
        subst h
        exact List.mem_cons_of_mem a (ih e hrec)
      · simp at h
        simp [h]

theorem argmaxFirst_isSome (f : ℕ → ℚ) (l : List ℕ) (h : l ≠ []) :
    ∃ d, argmaxFirst f l = some d := by
  cases l with
  | nil => exact absurd rfl h
  | cons a as =>
    unfold argmaxFirst
    cases argmaxFirst f as with
    | none => exact ⟨a, rfl⟩
    | some e =>
      by_cases hlt : f a < f e
      · exact ⟨e, if_pos hlt⟩
      · exact ⟨a, if_neg hlt⟩

theorem argmaxFirst_le (f : ℕ → ℚ) :
    ∀ (l : List ℕ) (d : ℕ), argmaxFirst f l = some d → ∀ e ∈ l, f e ≤ f d := by
  intro l
  induction l with
  | nil => intro d h; simp [argmaxFirst] at h
  | cons a as ih =>
    intro d h e he
    cases hrec : argmaxFirst f as with
    | none =>
      simp only [argmaxFirst, hrec] at h
      simp at h
      subst h
      cases as with
      | nil =>
        rcases List.mem_singleton.mp he with rfl
        exact le_refl _
      | cons b bs =>
        rcases argmaxFirst_isSome f (b :: bs) (by simp) with ⟨m, hm⟩
        rw [hm] at hrec
        cases hrec
    | some m =>
      simp only [argmaxFirst, hrec] at h
      split_ifs at h with hlt
      · simp at h
        subst h
        rcases List.mem_cons.mp he with rfl | hmem
        · exact le_of_lt hlt
        · exact ih m hrec e hmem
      · simp at h
        subst h
        rcases List.mem_cons.mp he with rfl | hmem
        · exact le_refl _
        · exact le_trans (ih m hrec e hmem) (not_lt.mp hlt)

theorem matchLoop_partition (thresh : ℚ) (f : ℕ → ℕ → ℚ) :
    ∀ (l : List ℕ) (st : MatchState), l.Nodup → (∀ i ∈ l, i ∈ st.unmatchedTracks) →
      ((matchLoop thresh f l st).matched.map Prod.snd
          ++ (matchLoop thresh f l st).unmatchedDets).Perm
        (st.matched.map Prod.snd ++ st.unmatchedDets)
      ∧ ((matchLoop thresh f l st).matched.map Prod.fst
          ++ (matchLoop thresh f l st).unmatchedTracks).Perm
        (st.matched.map Prod.fst ++ st.unmatchedTracks)
      ∧ (∀ p ∈ (matchLoop thresh f l st).matched, p ∈ st.matched ∨ thresh ≤ f p.1 p.2) := by
  intro l
  induction l with
  | nil =>
    intro st _ _
    exact ⟨List.Perm.refl _, List.Perm.refl _, fun p hp => Or.inl hp⟩
  | cons tIdx rest ih =>
    intro st hND hsub
    by_cases hempty : st.unmatchedDets = []
    · rw [matchLoop, if_pos hempty]
      exact ⟨List.Perm.refl _, List.Perm.refl _, fun p hp => Or.inl hp⟩
    · rcases argmaxFirst_isSome (f tIdx) st.unmatchedDets hempty with ⟨d, hd⟩
      have hdmem : d ∈ st.unmatchedDets := argmaxFirst_mem (f tIdx) st.unmatchedDets d hd
      have htmem : tIdx ∈ st.unmatchedTracks := hsub tIdx (List.mem_cons_self _ _)
      rw [matchLoop, if_neg hempty, hd]
      dsimp only
      by_cases hth : thresh ≤ f tIdx d
      · rw [if_pos hth]
        have hrestND : rest.Nodup := (List.nodup_cons.mp hND).2
        have htninr : tIdx ∉ rest := (List.nodup_cons.mp hND).1
        have hsub2 : ∀ i ∈ rest,
            i ∈ (MatchState.mk (st.matched ++ [(tIdx, d)]) (st.unmatchedDets.erase d)
              (st.unmatchedTracks.erase tIdx)).unmatchedTracks := by
          intro i hi
          have hne : i ≠ tIdx := fun heq => htninr (heq ▸ hi)
          exact (List.mem_erase_of_ne hne).mpr (hsub i (List.mem_cons_of_mem _ hi))
        rcases ih (MatchState.mk (st.matched ++ [(tIdx, d)]) (st.unmatchedDets.erase d)
            (st.unmatchedTracks.erase tIdx)) hrestND hsub2 with ⟨pd, pt, pm⟩
        refine ⟨pd.trans ?_, pt.trans ?_, fun p hp => ?_⟩
        · simp only [List.map_append, List.map_cons, List.map_nil]
          rw [List.append_assoc]
          exact List.Perm.append_left _
            (List.singleton_append ▸ (List.perm_cons_erase hdmem).symm)
        · simp only [List.map_append, List.map_cons, List.map_nil]
          rw [List.append_assoc]
          exact List.Perm.append_left _
            (List.singleton_append ▸ (List.perm_cons_erase htmem).symm)
        · rcases pm p hp with hin | hle
          · rcases List.mem_append.mp hin with hin2 | hin2
            · exact Or.inl hin2
            · rcases List.mem_singleton.mp hin2 with rfl
              exact Or.inr hth
          · exact Or.inr hle
      · rw [if_neg hth]
        exact ih st (List.nodup_cons.mp hND).2
          (fun i hi => hsub i (List.mem_cons_of_mem _ hi))

theorem kalmanMatch_partition (thresh : ℚ) (tbs dbs : List Box) :
    ((kalmanMatch thresh tbs dbs).1.map Prod.snd
        ++ (kalmanMatch thresh tbs dbs).2.1).Perm (List.range dbs.length)
    ∧ ((kalmanMatch thresh tbs dbs).1.map Prod.fst
        ++ (kalmanMatch thresh tbs dbs).2.2).Perm (List.range tbs.length)
    ∧ ∀ p ∈ (kalmanMatch thresh tbs dbs).1,
        thresh ≤ iou (tbs.getD p.1 boxZero) (dbs.getD p.2 boxZero) := by
  by_cases hemp : tbs.isEmpty ∨ dbs.isEmpty
  · rw [kalmanMatch, if_pos hemp]
    exact ⟨List.Perm.refl _, List.Perm.refl _, fun p hp => absurd hp (List.not_mem_nil p)⟩
  · rw [kalmanMatch, if_neg hemp]
    have h := matchLoop_partition thresh
      (fun t d => iou (tbs.getD t boxZero) (dbs.getD d boxZero))
      (List.range tbs.length)
      ⟨[], List.range dbs.length, List.range tbs.length⟩
      (List.nodup_range _) (fun i hi => hi)
    rcases h with ⟨pd, pt, pm⟩
    refine ⟨?_, ?_, ?_⟩
    · simpa using pd
    · simpa using pt
    · intro p hp
      rcases pm p hp with hin | hle
      · exact absurd hin (List.not_mem_nil p)
      · exact hle

/-- Claim C10: `_match` partitions its inputs: each detection index occurs
exactly once, either as the second component of a committed pair or among the
unmatched detections; each track index occurs exactly once, either as the first
component of a committed pair or among the unmatched tracks; and every committed
pair meets the IoU threshold. -/
theorem match_is_partition (thresh : ℚ) (tbs dbs : List Box) :
    ((kalmanMatch thresh tbs dbs).1.map Prod.snd
        ++ (kalmanMatch thresh tbs dbs).2.1).Perm (List.range dbs.length)
    ∧ ((kalmanMatch thresh tbs dbs).1.map Prod.fst
        ++ (kalmanMatch thresh tbs dbs).2.2).Perm (List.range tbs.length)
    ∧ ∀ p ∈ (kalmanMatch thresh tbs dbs).1,
        thresh ≤ iou (tbs.getD p.1 boxZero) (dbs.getD p.2 boxZero) :=
  kalmanMatch_partition thresh tbs dbs

/-- Witness for `match_is_partition` at one track box and one detection box that
do overlap: the pair `(0, 0)` is committed and meets the threshold. -/
theorem match_is_partition_witness :
    (((kalmanMatch (3 / 10) [⟨0, 0, 2, 2⟩] [⟨0, 0, 2, 2⟩]).1.map Prod.snd
        ++ (kalmanMatch (3 / 10) [⟨0, 0, 2, 2⟩] [⟨0, 0, 2, 2⟩]).2.1).Perm (List.range 1))
    ∧ (3 / 10 : ℚ) ≤ iou (([⟨0, 0, 2, 2⟩] : List Box).getD 0 boxZero)
        (([⟨0, 0, 2, 2⟩] : List Box).getD 0 boxZero) :=
  ⟨(match_is_partition (3 / 10) [⟨0, 0, 2, 2⟩] [⟨0, 0, 2, 2⟩]).1,
   (match_is_partition (3 / 10) [⟨0, 0, 2, 2⟩] [⟨0, 0, 2, 2⟩]).2.2 (0, 0) (by decide)⟩

/-- Claim C3: the association is greedy in track insertion order.  With an empty
track list everything is an unmatched detection and with an empty detection list
everything is an unmatched track (and the function is total, so neither raises);
once the unmatched-detection pool is empty the loop stops; and one loop step on
track `tIdx` picks a currently-unmatched detection of maximal IoU against that
track — necessarily the one `argmaxFirst` picks — commits the pair and removes
both indices when that IoU reaches `match_thresh`, and otherwise leaves the
state unchanged for this track. -/
theorem greedy_association_characterisation :
    (∀ (thresh : ℚ) (dbs : List Box),
       kalmanMatch thresh [] dbs = ([], List.range dbs.length, []))
    ∧ (∀ (thresh : ℚ) (tbs : List Box),
       kalmanMatch thresh tbs [] = ([], [], List.range tbs.length))
    ∧ (∀ (thresh : ℚ) (f : ℕ → ℕ → ℚ) (l : List ℕ) (st : MatchState),
       st.unmatchedDets = [] → matchLoop thresh f l st = st)
    ∧ (∀ (thresh : ℚ) (f : ℕ → ℕ → ℚ) (tIdx : ℕ) (rest : List ℕ) (st : MatchState),
       st.unmatchedDets ≠ [] →
       (argmaxFirst (f tIdx) st.unmatchedDets).getD 0 ∈ st.unmatchedDets
       ∧ (∀ e ∈ st.unmatchedDets,
            f tIdx e ≤ f tIdx ((argmaxFirst (f tIdx) st.unmatchedDets).getD 0))
       ∧ matchLoop thresh f (tIdx :: rest) st =
           (if thresh ≤ f tIdx ((argmaxFirst (f tIdx) st.unmatchedDets).getD 0) then
             matchLoop thresh f rest
               ⟨st.matched ++ [(tIdx, (argmaxFirst (f tIdx) st.unmatchedDets).getD 0)],
                st.unmatchedDets.erase ((argmaxFirst (f tIdx) st.unmatchedDets).getD 0),
                st.unmatchedTracks.erase tIdx⟩
            else matchLoop thresh f rest st)) := by
  refine ⟨?_, ?_, ?_, ?_⟩
  · intro thresh dbs
    simp [kalmanMatch]
  · intro thresh tbs
    simp [kalmanMatch]
  · intro thresh f l st hst
    cases l with
    | nil => rfl
    | cons a rest => rw [matchLoop, if_pos hst]
  · intro thresh f tIdx rest st hst
    rcases argmaxFirst_isSome (f tIdx) st.unmatchedDets hst with ⟨d, hd⟩
    have hgetD : (argmaxFirst (f tIdx) st.unmatchedDets).getD 0 = d := by rw [hd]; rfl
    rw [hgetD]
    refine ⟨argmaxFirst_mem (f tIdx) st.unmatchedDets d hd,
      argmaxFirst_le (f tIdx) st.unmatchedDets d hd, ?_⟩
    rw [matchLoop, if_neg hst, hd]

/-- Witness for `greedy_association_characterisation`: the stopped loop on an
empty unmatched-detection pool, and one concrete committed greedy step. -/
theorem greedy_association_characterisation_witness :
    matchLoop (3 / 10) iouStub [0] ⟨[], [], [5]⟩ = ⟨[], [], [5]⟩
    ∧ (argmaxFirst (iouStub 0) [0, 1]).getD 0 ∈ ([0, 1] : List ℕ)
    ∧ matchLoop (3 / 10) iouStub (0 :: []) ⟨[], [0, 1], [0]⟩ =
        (if (3 / 10 : ℚ) ≤ iouStub 0 ((argmaxFirst (iouStub 0) [0, 1]).getD 0) then
          matchLoop (3 / 10) iouStub []
            ⟨([] : List (ℕ × ℕ)) ++ [(0, (argmaxFirst (iouStub 0) [0, 1]).getD 0)],
             ([0, 1] : List ℕ).erase ((argmaxFirst (iouStub 0) [0, 1]).getD 0),
             ([0] : List ℕ).erase 0⟩
         else matchLoop (3 / 10) iouStub [] ⟨[], [0, 1], [0]⟩) :=
  ⟨greedy_association_characterisation.2.2.1 (3 / 10) iouStub [0] ⟨[], [], [5]⟩ rfl,
   (greedy_association_characterisation.2.2.2 (3 / 10) iouStub 0 [] ⟨[], [0, 1], [0]⟩
      (by decide)).1,
   (greedy_association_characterisation.2.2.2 (3 / 10) iouStub 0 [] ⟨[], [0, 1], [0]⟩
      (by decide)).2.2⟩

example :
    trackerUpdate (mkSORTTracker (1 / 2) (3 / 10) 75 5).1 0 [⟨⟨0, 0, 10, 10⟩, 1⟩]
      = some (⟨1 / 2, 3 / 10, 75, 5, [newKalmanTrack 0 ⟨0, 0, 10, 10⟩ 1]⟩, 1, []) := by
  decide

example : interleavedConstructionRun = some [0, 0] := by decide

theorem trackPredict_track_id (t : KalmanTrack) : (trackPredict t).track_id = t.track_id := rfl

theorem trackPredict_age (t : KalmanTrack) : (trackPredict t).age = t.age + 1 := rfl

theorem trackPredict_tsu (t : KalmanTrack) :
    (trackPredict t).time_since_update = t.time_since_update + 1 := rfl

theorem trackPredict_hits (t : KalmanTrack) : (trackPredict t).hits = t.hits := rfl

theorem newKalmanTrack_fields (id : ℕ) (b : Box) (s : ℚ) :
    (newKalmanTrack id b s).track_id = id ∧ (newKalmanTrack id b s).hits = 1
    ∧ (newKalmanTrack id b s).age = 1 ∧ (newKalmanTrack id b s).time_since_update = 0 :=
  ⟨rfl, rfl, rfl, rfl⟩

theorem trackUpdate_fields (t t2 : KalmanTrack) (b : Box) (s : ℚ)
    (h : trackUpdate t b s = some t2) :
    t2.track_id = t.track_id ∧ t2.hits = t.hits + 1 ∧ t2.age = t.age
      ∧ t2.time_since_update = 0 := by
  rcases Option.map_eq_some'.mp h with ⟨kf2, _, hb⟩
  rw [← hb]
  exact ⟨rfl, rfl, rfl, rfl⟩

theorem list_set_self {α : Type} : ∀ (l : List α) (i : ℕ) (a : α),
    l.get? i = some a → l.set i a = l := by
  intro l
  induction l with
  | nil => intro i a h; cases h
  | cons x xs ih =>
    intro i a h
    cases i with
    | zero =>
      simp only [List.get?] at h
      injection h with h
      rw [h]
      rfl
    | succ j =>
      simp only [List.get?] at h
      simp [List.set, ih j a h]

theorem applyMatches_ids (dets : List Det) :
    ∀ (pairs : List (ℕ × ℕ)) (ts ts2 : List KalmanTrack),
      applyMatches dets pairs ts = some ts2 →
      ts2.map KalmanTrack.track_id = ts.map KalmanTrack.track_id := by
  intro pairs
  induction pairs with
  | nil =>
    intro ts ts2 h
    simp only [applyMatches] at h
    injection h with h
    rw [h]
  | cons p rest ih =>
    intro ts ts2 h
    simp only [applyMatches, Option.bind_eq_some] at h
    rcases h with ⟨d, hd, t, ht, t2, hu, hrec⟩
    rw [ih (ts.set p.1 t2) ts2 hrec, List.map_set,
      (trackUpdate_fields t t2 d.box d.score hu).1]
    apply list_set_self
    have hmap : (ts.map KalmanTrack.track_id).get? p.1
        = (ts.get? p.1).map KalmanTrack.track_id := List.get?_map _ _ _
    rw [hmap, ht]
    rfl

theorem spawnNew_ids (dets : List Det) :
    ∀ (idxs : List ℕ) (ts : List KalmanTrack) (c : ℕ) (ts2 : List KalmanTrack) (c2 : ℕ),
      spawnNew dets idxs ts c = some (ts2, c2) →
      ts2.map KalmanTrack.track_id
          = ts.map KalmanTrack.track_id ++ List.range' c (c2 - c) ∧ c ≤ c2 := by
  intro idxs
  induction idxs with
  | nil =>
    intro ts c ts2 c2 h
    simp only [spawnNew] at h
    injection h with h
    rw [Prod.mk.injEq] at h
    rcases h with ⟨h1, h2⟩
    subst h1; subst h2
    simp
  | cons k rest ih =>
    intro ts c ts2 c2 h
    simp only [spawnNew, Option.bind_eq_some] at h
    rcases h with ⟨d, hd, hrec⟩
    rcases ih (ts ++ [newKalmanTrack c d.box d.score]) (c + 1) ts2 c2 hrec with ⟨hids, hle⟩
    constructor
    · rw [hids, List.map_append]
      have hc2 : c2 - c = (c2 - (c + 1)) + 1 := by omega
      rw [hc2, List.range'_succ]
      simp [newKalmanTrack]
    · omega

theorem splitAR_fst (mh ma : ℕ) :
    ∀ ts : List KalmanTrack,
      (splitAR mh ma ts).1
        = ts.filter fun t => decide (t.time_since_update = 0 ∧ mh ≤ t.hits) := by
  intro ts
  induction ts with
  | nil => rfl
  | cons u us ih =>
    by_cases h : u.time_since_update = 0 ∧ mh ≤ u.hits
    · simp [splitAR, ih, List.filter_cons, h]
    · simp [splitAR, ih, List.filter_cons, h]

theorem splitAR_snd (mh ma : ℕ) :
    ∀ ts : List KalmanTrack,
      (splitAR mh ma ts).2 = ts.filter fun t => decide (t.time_since_update ≤ ma) := by
  intro ts
  induction ts with
  | nil => rfl
  | cons u us ih =>
    by_cases h : u.time_since_update ≤ ma
    · simp [splitAR, ih, List.filter_cons, h]
    · simp [splitAR, ih, List.filter_cons, h]

theorem trackerAssoc_ids (tr : KalmanSORTTracker) (c : ℕ) (dets : List Det)
    (ts : List KalmanTrack) (c2 : ℕ) (h : trackerAssoc tr c dets = some (ts, c2)) :
    ts.map KalmanTrack.track_id = liveIds tr ++ List.range' c (c2 - c) ∧ c ≤ c2 := by
  simp only [trackerAssoc, Option.bind_eq_some] at h
  rcases h with ⟨updated, hupd, hspawn⟩
  rcases spawnNew_ids _ _ updated c ts c2 hspawn with ⟨hids, hle⟩
  refine ⟨?_, hle⟩
  rw [hids, applyMatches_ids _ _ _ updated hupd]
  have hpred : (tr.tracks.map trackPredict).map KalmanTrack.track_id = liveIds tr := by
    rw [List.map_map]
    rfl
  rw [hpred]

/-- Claim C1: a track appears in the reportable list returned by `update` exactly
when, in the post-association track set of that frame, it has
`time_since_update = 0` and at least `min_hits` hits; in particular every
reported track satisfies both conditions. -/
theorem update_report_iff (tr : KalmanSORTTracker) (c : ℕ) (dets : List Det)
    (ts : List KalmanTrack) (c2 : ℕ) (t : KalmanTrack)
    (h : trackerAssoc tr c dets = some (ts, c2)) :
    t ∈ activeOf (trackerUpdate tr c dets)
      ↔ t ∈ ts ∧ t.time_since_update = 0 ∧ tr.min_hits ≤ t.hits := by
  rw [trackerUpdate, h]
  show t ∈ (splitAR tr.min_hits tr.max_age ts).1 ↔ _
  rw [splitAR_fst, List.mem_filter]
  simp

/-- Witness for `update_report_iff`: the freshly constructed tracker, an empty
detection list, and a throwaway track; both sides of the equivalence are false. -/
theorem update_report_iff_witness :
    newKalmanTrack 0 ⟨0, 0, 10, 10⟩ 1
        ∈ activeOf (trackerUpdate (mkSORTTracker (1 / 2) (3 / 10) 75 5).1 0 [])
      ↔ newKalmanTrack 0 ⟨0, 0, 10, 10⟩ 1 ∈ ([] : List KalmanTrack)
        ∧ (newKalmanTrack 0 ⟨0, 0, 10, 10⟩ 1).time_since_update = 0
        ∧ (mkSORTTracker (1 / 2) (3 / 10) 75 5).1.min_hits
            ≤ (newKalmanTrack 0 ⟨0, 0, 10, 10⟩ 1).hits :=
  update_report_iff (mkSORTTracker (1 / 2) (3 / 10) 75 5).1 0 [] [] 0
    (newKalmanTrack 0 ⟨0, 0, 10, 10⟩ 1) (by decide)

theorem trackerAssoc_empty (tr : KalmanSORTTracker) (c : ℕ) :
    trackerAssoc tr c [] = some (tr.tracks.map trackPredict, c) := by
  simp [trackerAssoc, kalmanMatch, applyMatches, spawnNew]

/-- Claim C4: calling `update([])` after any successful update never raises,
returns an empty reportable list (hence no longer than the previous frame's),
leaves the id counter unchanged, makes the live set exactly the predicted old
tracks that still satisfy `time_since_update <= max_age`, and `predict`
increments `age` and `time_since_update` of every live track by exactly one. -/
theorem update_empty_detections (tr0 : KalmanSORTTracker) (c0 : ℕ) (dets0 : List Det)
    (tr : KalmanSORTTracker) (c : ℕ) (act : List KalmanTrack)
    (h : trackerUpdate tr0 c0 dets0 = some (tr, c, act)) :
    (trackerUpdate tr c []).isSome = true
    ∧ activeOf (trackerUpdate tr c []) = []
    ∧ tracksOf (trackerUpdate tr c [])
        = (tr.tracks.map trackPredict).filter
            (fun t => decide (t.time_since_update ≤ tr.max_age))
    ∧ (∀ t ∈ tr.tracks, (trackPredict t).age = t.age + 1
        ∧ (trackPredict t).time_since_update = t.time_since_update + 1)
    ∧ (activeOf (trackerUpdate tr c [])).length ≤ act.length := by
  have hassoc := trackerAssoc_empty tr c
  have hact : activeOf (trackerUpdate tr c []) = [] := by
    rw [trackerUpdate, hassoc]
    show (splitAR tr.min_hits tr.max_age (tr.tracks.map trackPredict)).1 = []
    rw [splitAR_fst]
    rw [List.filter_eq_nil]
    intro t ht
    rcases List.mem_map.mp ht with ⟨u, _, rfl⟩
    simp [trackPredict]
  refine ⟨?_, hact, ?_, fun t _ => ⟨rfl, rfl⟩, ?_⟩
  · rw [trackerUpdate, hassoc]
    rfl
  · rw [trackerUpdate, hassoc]
    show (splitAR tr.min_hits tr.max_age (tr.tracks.map trackPredict)).2 = _
    rw [splitAR_snd]
  · rw [hact]
    simp

/-- Witness for `update_empty_detections`: the previous frame is the very first
update of a fresh tracker, itself on an empty detection list. -/
theorem update_empty_detections_witness :
    activeOf (trackerUpdate (mkSORTTracker (1 / 2) (3 / 10) 75 5).1 0 []) = []
    ∧ (activeOf (trackerUpdate (mkSORTTracker (1 / 2) (3 / 10) 75 5).1 0 [])).length
        ≤ ([] : List KalmanTrack).length :=
  ⟨(update_empty_detections (mkSORTTracker (1 / 2) (3 / 10) 75 5).1 0 []
      (mkSORTTracker (1 / 2) (3 / 10) 75 5).1 0 [] (by decide)).2.1,
   (update_empty_detections (mkSORTTracker (1 / 2) (3 / 10) 75 5).1 0 []
      (mkSORTTracker (1 / 2) (3 / 10) 75 5).1 0 [] (by decide)).2.2.2.2⟩

theorem trackerUpdate_components (tr : KalmanSORTTracker) (c : ℕ) (dets : List Det)
    (tr2 : KalmanSORTTracker) (c2 : ℕ) (act : List KalmanTrack)
    (h : trackerUpdate tr c dets = some (tr2, c2, act)) :
    ∃ ts, trackerAssoc tr c dets = some (ts, c2)
      ∧ tr2.tracks = (splitAR tr.min_hits tr.max_age ts).2
      ∧ act = (splitAR tr.min_hits tr.max_age ts).1 := by
  rcases Option.map_eq_some'.mp h with ⟨p, hp, heq⟩
  injection heq with h1 hrest
  injection hrest with h2 h3
  subst h2
  refine ⟨p.1, by rw [hp], ?_, h3.symm⟩
  rw [← h1]

theorem trackerUpdate_inv (tr : KalmanSORTTracker) (c : ℕ) (dets : List Det)
    (tr2 : KalmanSORTTracker) (c2 : ℕ) (act : List KalmanTrack)
    (h : trackerUpdate tr c dets = some (tr2, c2, act)) (hInv : TrackerInv tr c) :
    TrackerInv tr2 c2 ∧ c ≤ c2
      ∧ ∀ i, i < c → i ∉ liveIds tr →
          i ∉ liveIds tr2 ∧ i ∉ act.map KalmanTrack.track_id := by
  rcases trackerUpdate_components tr c dets tr2 c2 act h with ⟨ts, hassoc, htracks, hact⟩
  rcases trackerAssoc_ids tr c dets ts c2 hassoc with ⟨hids, hle⟩
  have hcc : c + (c2 - c) = c2 := by omega
  have htsNodup : (ts.map KalmanTrack.track_id).Nodup := by
    rw [hids, List.nodup_append]
    refine ⟨hInv.1, List.nodup_range' _ _, fun a ha hb => ?_⟩
    have h1 : a < c := hInv.2 a ha
    have h2 : c ≤ a := (List.mem_range'_1.mp hb).1
    omega
  have hlive2 : List.Sublist (liveIds tr2) (ts.map KalmanTrack.track_id) := by
    rw [liveIds, htracks, splitAR_snd]
    exact (List.filter_sublist _).map _
  have hact2 : List.Sublist (act.map KalmanTrack.track_id) (ts.map KalmanTrack.track_id) := by
    rw [hact, splitAR_fst]
    exact (List.filter_sublist _).map _
  refine ⟨⟨htsNodup.sublist hlive2, ?_⟩, hle, ?_⟩
  · intro i hi
    have := hlive2.subset hi
    rw [hids] at this
    rcases List.mem_append.mp this with hiold | hinew
    · exact lt_of_lt_of_le (hInv.2 i hiold) hle
    · have := (List.mem_range'_1.mp hinew).2
      omega
  · intro i hic hinot
    have hnotts : i ∉ ts.map KalmanTrack.track_id := by
      rw [hids]
      intro hmem
      rcases List.mem_append.mp hmem with hiold | hinew
      · exact hinot hiold
      · have := (List.mem_range'_1.mp hinew).1
        omega
    exact ⟨fun hmem => hnotts (hlive2.subset hmem),
           fun hmem => hnotts (hact2.subset hmem)⟩

theorem update_live_iff (tr : KalmanSORTTracker) (c : ℕ) (dets : List Det)
    (ts : List KalmanTrack) (c2 : ℕ) (t : KalmanTrack)
    (h : trackerAssoc tr c dets = some (ts, c2)) :
    t ∈ tracksOf (trackerUpdate tr c dets)
      ↔ t ∈ ts ∧ t.time_since_update ≤ tr.max_age := by
  rw [trackerUpdate, h]
  show t ∈ (splitAR tr.min_hits tr.max_age ts).2 ↔ _
  rw [splitAR_snd, List.mem_filter]
  simp

theorem runOutputs_pruned (i : ℕ) :
    ∀ (frames : List (List Det)) (tr : KalmanSORTTracker) (c : ℕ),
      TrackerInv tr c → i < c → i ∉ liveIds tr →
      ∀ out ∈ runOutputs tr c frames, i ∉ out.map KalmanTrack.track_id := by
  intro frames
  induction frames with
  | nil =>
    intro tr c _ _ _ out hout
    simp [runOutputs] at hout
  | cons f fs ih =>
    intro tr c hInv hic hnot out hout
    rw [runOutputs] at hout
    cases hup : trackerUpdate tr c f with
    | none => rw [hup] at hout; simp at hout
    | some r =>
      rw [hup] at hout
      rcases trackerUpdate_inv tr c f r.1 r.2.1 r.2.2 (by rw [hup]) hInv
        with ⟨hInv2, hle, hpres⟩
      rcases hpres i hic hnot with ⟨hnl, hna⟩
      rcases List.mem_cons.mp hout with rfl | hmem
      · exact hna
      · exact ih r.1 r.2.1 hInv2 (lt_of_lt_of_le hic hle) hnl out hmem

/-- Claim C5: after each `update`, a track of the frame's post-association set
stays in the live set exactly when its `time_since_update` is at most `max_age`;
and once an id is retired from a tracker instance whose live ids are distinct
and below the counter — in particular once its track was pruned — that id never
occurs in any later reportable output of the same instance. -/
theorem prune_semantics :
    (∀ (tr : KalmanSORTTracker) (c : ℕ) (dets : List Det) (ts : List KalmanTrack)
       (c2 : ℕ) (t : KalmanTrack), trackerAssoc tr c dets = some (ts, c2) →
       (t ∈ tracksOf (trackerUpdate tr c dets)
          ↔ t ∈ ts ∧ t.time_since_update ≤ tr.max_age))
    ∧ (∀ (i : ℕ) (frames : List (List Det)) (tr : KalmanSORTTracker) (c : ℕ),
       TrackerInv tr c → i < c → i ∉ liveIds tr →
       ∀ out ∈ runOutputs tr c frames, i ∉ out.map KalmanTrack.track_id) :=
  ⟨fun tr c dets ts c2 t h => update_live_iff tr c dets ts c2 t h,
   fun i frames tr c hInv hic hnot => runOutputs_pruned i frames tr c hInv hic hnot⟩

/-- Witness for `prune_semantics`: the live-set equivalence at a fresh tracker
with no detections, and the retired id `0` of a tracker whose counter has
advanced to `1`, absent from the output of its next (empty) frame. -/
theorem prune_semantics_witness :
    (newKalmanTrack 0 ⟨0, 0, 10, 10⟩ 1
        ∈ tracksOf (trackerUpdate (mkSORTTracker (1 / 2) (3 / 10) 75 5).1 0 [])
      ↔ newKalmanTrack 0 ⟨0, 0, 10, 10⟩ 1 ∈ ([] : List KalmanTrack)
        ∧ (newKalmanTrack 0 ⟨0, 0, 10, 10⟩ 1).time_since_update
            ≤ (mkSORTTracker (1 / 2) (3 / 10) 75 5).1.max_age)
    ∧ (0 : ℕ) ∉ ([] : List KalmanTrack).map KalmanTrack.track_id :=
  ⟨prune_semantics.1 (mkSORTTracker (1 / 2) (3 / 10) 75 5).1 0 [] [] 0
      (newKalmanTrack 0 ⟨0, 0, 10, 10⟩ 1) (by decide),
   prune_semantics.2 0 [[]] ⟨1 / 2, 3 / 10, 75, 5, []⟩ 1
      (by constructor <;> decide) (by decide) (by decide) [] (by decide)⟩

theorem kalmanMatch_fst_nodup (thresh : ℚ) (tbs dbs : List Box) :
    ((kalmanMatch thresh tbs dbs).1.map Prod.fst).Nodup := by
  have h := (kalmanMatch_partition thresh tbs dbs).2.1
  have h2 : ((kalmanMatch thresh tbs dbs).1.map Prod.fst
      ++ (kalmanMatch thresh tbs dbs).2.2).Nodup :=
    h.nodup_iff.mpr (List.nodup_range _)
  exact (List.nodup_append.mp h2).1

theorem applyMatches_bounds (dets : List Det) :
    ∀ (pairs : List (ℕ × ℕ)) (ts ts2 : List KalmanTrack),
      applyMatches dets pairs ts = some ts2 →
      (pairs.map Prod.fst).Nodup →
      (∀ t ∈ ts, 1 ≤ t.hits ∧ t.hits ≤ t.age) →
      (∀ j ∈ pairs.map Prod.fst, ∀ t, ts.get? j = some t → t.hits + 1 ≤ t.age) →
      ∀ t ∈ ts2, 1 ≤ t.hits ∧ t.hits ≤ t.age := by
  intro pairs
  induction pairs with
  | nil =>
    intro ts ts2 h _ hQ _
    simp only [applyMatches] at h
    injection h with h
    subst h
    exact hQ
  | cons p rest ih =>
    intro ts ts2 h hND hQ hP
    rw [List.map_cons] at hND
    rcases List.nodup_cons.mp hND with ⟨hnotin, hND2⟩
    simp only [applyMatches, Option.bind_eq_some] at h
    rcases h with ⟨d, hd, t, ht, t2, hu, hrec⟩
    rcases trackUpdate_fields t t2 d.box d.score hu with ⟨_, hh, ha, _⟩
    have hPt : t.hits + 1 ≤ t.age := hP p.1 (by simp) t ht
    have hQ2 : ∀ u ∈ ts.set p.1 t2, 1 ≤ u.hits ∧ u.hits ≤ u.age := by
      intro u hu2
      rcases List.mem_or_eq_of_mem_set hu2 with hmem | rfl
      · exact hQ u hmem
      · constructor
        · rw [hh]; omega
        · rw [hh, ha]; omega
    have hP2 : ∀ j ∈ rest.map Prod.fst, ∀ u,
        (ts.set p.1 t2).get? j = some u → u.hits + 1 ≤ u.age := by
      intro j hj u hu2
      have hne : p.1 ≠ j := fun heq => hnotin (heq ▸ hj)
      rw [List.get?_set_ne t2 ts hne] at hu2
      exact hP j (List.mem_cons_of_mem _ hj) u hu2
    exact ih (ts.set p.1 t2) ts2 hrec hND2 hQ2 hP2

theorem spawnNew_bounds (dets : List Det) :
    ∀ (idxs : List ℕ) (ts : List KalmanTrack) (c : ℕ) (ts2 : List KalmanTrack) (c2 : ℕ),
      spawnNew dets idxs ts c = some (ts2, c2) →
      (∀ t ∈ ts, 1 ≤ t.hits ∧ t.hits ≤ t.age) →
      ∀ t ∈ ts2, 1 ≤ t.hits ∧ t.hits ≤ t.age := by
  intro idxs
  induction idxs with
  | nil =>
    intro ts c ts2 c2 h hQ
    simp only [spawnNew] at h
    injection h with h
    rw [Prod.mk.injEq] at h
    rcases h with ⟨h1, _⟩
    subst h1
    exact hQ
  | cons k rest ih =>
    intro ts c ts2 c2 h hQ
    simp only [spawnNew, Option.bind_eq_some] at h
    rcases h with ⟨d, _, hrec⟩
    refine ih (ts ++ [newKalmanTrack c d.box d.score]) (c + 1) ts2 c2 hrec ?_
    intro u hu
    rcases List.mem_append.mp hu with hmem | hmem
    · exact hQ u hmem
    · rcases List.mem_singleton.mp hmem with rfl
      exact ⟨le_refl _, le_refl _⟩

theorem trackerUpdate_hitsAge (tr : KalmanSORTTracker) (c : ℕ) (dets : List Det)
    (tr2 : KalmanSORTTracker) (c2 : ℕ) (act : List KalmanTrack)
    (h : trackerUpdate tr c dets = some (tr2, c2, act))
    (hInv : ∀ t ∈ tr.tracks, 1 ≤ t.hits ∧ t.hits ≤ t.age) :
    ∀ t ∈ tr2.tracks, 1 ≤ t.hits ∧ t.hits ≤ t.age := by
  rcases trackerUpdate_components tr c dets tr2 c2 act h with ⟨ts, hassoc, htracks, _⟩
  simp only [trackerAssoc, Option.bind_eq_some] at hassoc
  rcases hassoc with ⟨updated, hupd, hspawn⟩
  have hpredQ : ∀ t ∈ tr.tracks.map trackPredict, 1 ≤ t.hits ∧ t.hits ≤ t.age := by
    intro t ht
    rcases List.mem_map.mp ht with ⟨u, hu, rfl⟩
    have := hInv u hu
    rw [trackPredict_hits, trackPredict_age]
    omega
  have hpredP : ∀ j ∈ ((kalmanMatch tr.match_thresh
        ((tr.tracks.map trackPredict).map KalmanTrack.bbox)
        ((dets.filter fun d => tr.track_thresh ≤ d.score).map Det.box)).1.map Prod.fst),
      ∀ t, (tr.tracks.map trackPredict).get? j = some t → t.hits + 1 ≤ t.age := by
    intro j _ t ht
    rcases List.mem_map.mp (List.get?_mem ht) with ⟨u, hu, rfl⟩
    have := hInv u hu
    rw [trackPredict_hits, trackPredict_age]
    omega
  have hupdQ := applyMatches_bounds _ _ _ updated hupd
    (kalmanMatch_fst_nodup _ _ _) hpredQ hpredP
  have htsQ := spawnNew_bounds _ _ updated c ts c2 hspawn hupdQ
  intro t ht
  rw [htracks, splitAR_snd] at ht
  exact htsQ t (List.mem_of_mem_filter ht)

theorem runTracker_hitsAge :
    ∀ (frames : List (List Det)) (tr : KalmanSORTTracker) (c : ℕ),
      (∀ t ∈ tr.tracks, 1 ≤ t.hits ∧ t.hits ≤ t.age) →
      ∀ t ∈ (runTracker tr c frames).1.tracks, 1 ≤ t.hits ∧ t.hits ≤ t.age := by
  intro frames
  induction frames with
  | nil => intro tr c hQ; exact hQ
  | cons f fs ih =>
    intro tr c hQ
    rw [runTracker]
    cases hup : trackerUpdate tr c f with
    | none => exact hQ
    | some r =>
      exact ih r.1 r.2.1 (trackerUpdate_hitsAge tr c f r.1 r.2.1 r.2.2 (by rw [hup]) hQ)

/-- Claim C9: after any sequence of `update` calls on a freshly constructed
tracker, every live track satisfies `1 <= hits <= age`: each frame increments
`age` exactly once (in `predict`) and `hits` at most once (only when matched in
that frame, which `_match` does at most once per track). -/
theorem live_track_hits_le_age (tt mt : ℚ) (ma mh : ℕ) (frames : List (List Det))
    (t : KalmanTrack)
    (ht : t ∈ (runTracker (mkSORTTracker tt mt ma mh).1
        (mkSORTTracker tt mt ma mh).2 frames).1.tracks) :
    1 ≤ t.hits ∧ t.hits ≤ t.age :=
  runTracker_hitsAge frames (mkSORTTracker tt mt ma mh).1 (mkSORTTracker tt mt ma mh).2
    (fun u hu => absurd hu (List.not_mem_nil u)) t ht

/-- Witness for `live_track_hits_le_age`: one frame with one confident
detection leaves exactly the spawned track live, with `hits = age = 1`. -/
theorem live_track_hits_le_age_witness :
    1 ≤ (newKalmanTrack 0 ⟨0, 0, 10, 10⟩ 1).hits
      ∧ (newKalmanTrack 0 ⟨0, 0, 10, 10⟩ 1).hits ≤ (newKalmanTrack 0 ⟨0, 0, 10, 10⟩ 1).age :=
  live_track_hits_le_age (1 / 2) (3 / 10) 75 5 [[⟨⟨0, 0, 10, 10⟩, 1⟩]]
    (newKalmanTrack 0 ⟨0, 0, 10, 10⟩ 1) (by decide)

theorem runTracker_inv :
    ∀ (frames : List (List Det)) (tr : KalmanSORTTracker) (c : ℕ),
      TrackerInv tr c → TrackerInv (runTracker tr c frames).1 (runTracker tr c frames).2 := by
  intro frames
  induction frames with
  | nil => intro tr c hInv; exact hInv
  | cons f fs ih =>
    intro tr c hInv
    rw [runTracker]
    cases hup : trackerUpdate tr c f with
    | none => exact hInv
    | some r =>
      exact ih r.1 r.2.1 (trackerUpdate_inv tr c f r.1 r.2.1 r.2.2 (by rw [hup]) hInv).1

theorem trackerUpdate_counter_le (tr : KalmanSORTTracker) (c : ℕ) (dets : List Det)
    (r : KalmanSORTTracker × ℕ × List KalmanTrack)
    (h : trackerUpdate tr c dets = some r) : c ≤ r.2.1 := by
  rcases trackerUpdate_components tr c dets r.1 r.2.1 r.2.2 (by rw [h]) with ⟨ts, hassoc, _, _⟩
  exact (trackerAssoc_ids tr c dets ts r.2.1 hassoc).2

theorem runCreated_ge :
    ∀ (frames : List (List Det)) (tr : KalmanSORTTracker) (c : ℕ) (j : ℕ),
      j ∈ runCreated tr c frames → c ≤ j := by
  intro frames
  induction frames with
  | nil => intro tr c j hj; simp [runCreated] at hj
  | cons f fs ih =>
    intro tr c j hj
    rw [runCreated] at hj
    cases hup : trackerUpdate tr c f with
    | none => rw [hup] at hj; simp at hj
    | some r =>
      rw [hup] at hj
      rcases List.mem_append.mp hj with hmem | hmem
      · exact (List.mem_range'_1.mp hmem).1
      · exact le_trans (trackerUpdate_counter_le tr c f r hup) (ih r.1 r.2.1 j hmem)

theorem runCreated_nodup :
    ∀ (frames : List (List Det)) (tr : KalmanSORTTracker) (c : ℕ),
      (runCreated tr c frames).Nodup := by
  intro frames
  induction frames with
  | nil => intro tr c; simp [runCreated]
  | cons f fs ih =>
    intro tr c
    rw [runCreated]
    cases hup : trackerUpdate tr c f with
    | none => simp
    | some r =>
      rw [List.nodup_append]
      refine ⟨List.nodup_range' _ _, ih r.1 r.2.1, fun a ha hb => ?_⟩
      rcases List.mem_range'_1.mp ha with ⟨h1, h2⟩
      have h3 := runCreated_ge fs r.1 r.2.1 a hb
      omega

/-- Claim C2 (amended): as long as no other `KalmanSORTTracker` is constructed
during the instance's lifetime, track ids are unique: along any single-instance
run from construction, the live ids are always pairwise distinct and the ids
handed out to spawned tracks never repeat.  (The unamended claim fails because
every construction resets the shared class-level counter to `0`.) -/
theorem track_ids_unique_single_instance (tt mt : ℚ) (ma mh : ℕ)
    (frames : List (List Det)) :
    ((runTracker (mkSORTTracker tt mt ma mh).1
        (mkSORTTracker tt mt ma mh).2 frames).1.tracks.map KalmanTrack.track_id).Nodup
    ∧ (runCreated (mkSORTTracker tt mt ma mh).1
        (mkSORTTracker tt mt ma mh).2 frames).Nodup :=
  ⟨(runTracker_inv frames (mkSORTTracker tt mt ma mh).1 (mkSORTTracker tt mt ma mh).2
      ⟨List.nodup_nil, fun i hi => absurd hi (List.not_mem_nil i)⟩).1,
   runCreated_nodup frames (mkSORTTracker tt mt ma mh).1 (mkSORTTracker tt mt ma mh).2⟩

/-- Counterexample to claim C2 as stated: in the interleaved-construction
scenario the first tracker instance ends up with two live tracks both carrying
`track_id = 0`, because constructing the second instance reset the shared
class-level id counter. -/
theorem track_id_reuse_cex :
    interleavedConstructionRun = some [0, 0] ∧ ¬ ([0, 0] : List ℕ).Nodup := by
  constructor
  · decide
  · decide
